import Mathlib

/-! Shallow embedding of the StockPro transactional core: the sale-settlement
    engine (applications/ventas/views.py, POSView.post, together with
    DetalleVenta.save from applications/ventas/models.py) and the cash-closing
    engine (applications/cierres/views.py, RealizarCierreView.post, together
    with DetalleCierre.diferencia from applications/cierres/models.py).

    The relational state is modelled as Lean lists of rows.  Monetary and
    quantity values are exact rationals, mirroring Python `Decimal`
    arithmetic, which is exact for addition, subtraction, multiplication and
    `min`; every division reached by the claims below is exact as well.
    Database transactions (`transaction.atomic`) are modelled by returning
    `Except`: an error outcome carries no state, i.e. the rollback discards
    every staged mutation. -/

instance {ε α : Type} [DecidableEq ε] [DecidableEq α] : DecidableEq (Except ε α) := fun x y =>
  match x, y with
  | .ok a, .ok b => if h : a = b then .isTrue (by rw [h]) else .isFalse (by simp [h])
  | .error a, .error b => if h : a = b then .isTrue (by rw [h]) else .isFalse (by simp [h])
  | .ok _, .error _ => .isFalse (by simp)
  | .error _, .ok _ => .isFalse (by simp)

structure Producto where
  id : Nat
  nombre : String
  deriving DecidableEq, Repr

/-- One row of the Lote table (applications/stock/models.py): remaining
    quantity, purchase unit cost and an optional expiry date (a `DateField`
    with null=True; dates are coded as integers, only their order matters). -/
structure Lote where
  id : Nat
  producto : Nat
  cantidad_actual : ℚ
  precio_compra : ℚ
  fecha_vencimiento : Option Int
  deriving DecidableEq, Repr

/-- Comparison used by `ORDER BY fecha_vencimiento` on the configured SQLite
    backend (stockpro/settings.py DATABASES): in ascending order SQLite places
    NULL before every non-NULL value, so a null expiry sorts strictly first. -/
def fechaLT : Option Int → Option Int → Bool
  | none, none => false
  | none, some _ => true
  | some _, none => false
  | some a, some b => decide (a < b)

/-- Non-strict version of `fechaLT` (total preorder on expiry dates). -/
def fechaLE : Option Int → Option Int → Bool
  | none, _ => true
  | some _, none => false
  | some a, some b => decide (a ≤ b)

def insertLote (l : Lote) : List Lote → List Lote
  | [] => [l]
  | x :: xs =>
      if fechaLT x.fecha_vencimiento l.fecha_vencimiento then x :: insertLote l xs
      else l :: x :: xs

/-- Stable sort by expiry date; models `.order_by('fecha_vencimiento')`. -/
def sortLotes : List Lote → List Lote
  | [] => []
  | l :: ls => insertLote l (sortLotes ls)

/-- The row predicate `producto=..., cantidad_actual__gt=0`. -/
def esDisponible (p : Nat) (l : Lote) : Bool :=
  l.producto == p && decide (0 < l.cantidad_actual)

/-- `Lote.objects.filter(producto=..., cantidad_actual__gt=0).order_by('fecha_vencimiento')`
    (views.py lines 153-156). -/
def lotes_disponibles (s : List Lote) (p : Nat) : List Lote :=
  sortLotes (s.filter (esDisponible p))

/-- `Lote.objects.filter(producto=..., cantidad_actual__gt=0).aggregate(total=Sum('cantidad_actual'))['total'] or Decimal('0.00')`
    (views.py lines 113-116): the sum over available lotes, 0 when there are none. -/
def stock_total (s : List Lote) (p : Nat) : ℚ :=
  ((s.filter (esDisponible p)).map Lote.cantidad_actual).sum

/-- The inner `for lote in lotes_disponibles` loop (views.py lines 162-174):
    each visited lote is decremented by
    `cantidad_a_descontar = min(cantidad_a_vender, lote.cantidad_actual)`;
    the loop returns the accumulated `costo_total_ponderado` and, per visited
    lote id, the amount subtracted from it. -/
def consumir_lotes (cantidad_a_vender : ℚ) : List Lote → ℚ × List (Nat × ℚ)
  | [] => (0, [])
  | lote :: rest =>
      if cantidad_a_vender ≤ 0 then (0, [])
      else
        let d := min cantidad_a_vender lote.cantidad_actual
        let r := consumir_lotes (cantidad_a_vender - d) rest
        (d * lote.precio_compra + r.1, (lote.id, d) :: r.2)

/-- `lote.cantidad_actual -= d; lote.save()` applied to the table row with the
    given id. -/
def descontar (s : List Lote) (i : Nat) (d : ℚ) : List Lote :=
  s.map fun l =>
    if l.id == i then { l with cantidad_actual := l.cantidad_actual - d } else l

/-- Sequential application of the per-lote decrements of one line. -/
def aplicar_descuentos (s : List Lote) : List (Nat × ℚ) → List Lote
  | [] => s
  | e :: rest => aplicar_descuentos (descontar s e.1 e.2) rest

/-- One cart entry: `{'quantity': ..., 'price': ...}`. -/
structure ItemData where
  quantity : ℚ
  price : ℚ
  deriving DecidableEq, Repr

/-- Error taxonomy of POSView.post: `notFound` is the DoesNotExist branch
    (views.py line 195), `insufficientStock` the ValueError branch raised at
    line 119 and returned at line 197 carrying product name, requested and
    available amount, and `unexpected` the generic `except Exception` branch
    (views.py lines 199-202, HTTP 500 with a generic message). -/
inductive VentaError where
  | notFound
  | insufficientStock (producto : String) (solicitado disponible : ℚ)
  | unexpected
  deriving DecidableEq, Repr

structure DetalleVenta where
  producto : Nat
  cantidad : ℚ
  precio_unitario_momento : ℚ
  precio_compra_momento : ℚ
  subtotal : ℚ
  deriving DecidableEq, Repr

/-- `DetalleVenta.objects.create(...)` followed by `DetalleVenta.save`
    (models.py lines 106-113), which sets
    `subtotal = cantidad * precio_unitario_momento` before persisting. -/
def DetalleVenta.crear (producto : Nat) (cantidad precio_unitario precio_compra : ℚ) :
    DetalleVenta :=
  { producto := producto, cantidad := cantidad,
    precio_unitario_momento := precio_unitario,
    precio_compra_momento := precio_compra,
    subtotal := cantidad * precio_unitario }

structure Venta where
  total : ℚ
  descuento : ℚ
  metodo_pago : Nat
  cliente : Option Nat
  deriving DecidableEq, Repr

/-- PASO 1 of POSView.post (views.py lines 107-119): for each item, look up the
    product (DoesNotExist aborts with notFound) and raise
    `insufficientStock` when `cantidad_solicitada > stock_total`. -/
def validar_stock (productos : List Producto) (s : List Lote) :
    List (Nat × ItemData) → Except VentaError Unit
  | [] => .ok ()
  | e :: rest =>
      match productos.find? (fun p => p.id == e.1) with
      | none => .error .notFound
      | some producto =>
          if stock_total s e.1 < e.2.quantity then
            .error (.insufficientStock producto.nombre e.2.quantity (stock_total s e.1))
          else validar_stock productos s rest

/-- One iteration of PASO 3 (views.py lines 147-186): FEFO consumption for one
    cart line followed by
    `precio_compra_promedio = costo_total_ponderado / cantidad_inicial_necesaria`.
    When `cantidad` is 0 that Decimal division (0/0) raises
    `decimal.InvalidOperation`, which is not a `ValueError` and therefore falls
    through to the generic `except Exception` handler: modelled as `unexpected`. -/
def procesar_linea (s : List Lote) (producto : Producto) (item : ItemData) :
    Except VentaError (DetalleVenta × List Lote) :=
  let disponibles := lotes_disponibles s producto.id
  let r := consumir_lotes item.quantity disponibles
  let s' := aplicar_descuentos s r.2
  if item.quantity = 0 then .error .unexpected
  else
    .ok (DetalleVenta.crear producto.id item.quantity item.price (r.1 / item.quantity), s')

/-- The `for product_id, item_data in items.items()` loop of PASO 3, threading
    the lote table through the per-line consumption. -/
def procesar_lineas (productos : List Producto) :
    List Lote → List (Nat × ItemData) → Except VentaError (List DetalleVenta × List Lote)
  | s, [] => .ok ([], s)
  | s, e :: rest =>
      match productos.find? (fun p => p.id == e.1) with
      | none => .error .notFound
      | some producto =>
          match procesar_linea s producto e.2 with
          | .error err => .error err
          | .ok r =>
              match procesar_lineas productos r.2 rest with
              | .error err => .error err
              | .ok rs => .ok (r.1 :: rs.1, rs.2)

/-- PASO 2's backend subtotal (views.py lines 128-130):
    `subtotal_calculado = Σ price * quantity` over the cart. -/
def subtotal_calculado (items : List (Nat × ItemData)) : ℚ :=
  (items.map (fun e => e.2.price * e.2.quantity)).sum

/-- Cliente lookup: absent client id is allowed; a present one must resolve. -/
def clienteOk (clientes : List Nat) : Option Nat → Bool
  | none => true
  | some c => clientes.contains c

structure VentaResult where
  venta : Venta
  detalles : List DetalleVenta
  lotes : List Lote
  deriving DecidableEq, Repr

/-- POSView.post (views.py lines 95-202), the spec's `settle_sale`:
    discount normalisation (negative discounts clamp to 0), stock
    pre-validation, payment-method and customer resolution, backend total with
    clamping at zero, Venta creation, and the per-line FEFO loop — all inside
    `transaction.atomic()`, so an error outcome leaves no Venta, DetalleVenta
    or Lote change behind (the `.error` result carries no state). -/
def settle_sale (productos : List Producto) (metodos : List Nat) (clientes : List Nat)
    (s : List Lote) (items : List (Nat × ItemData)) (metodoPagoId : Nat)
    (clienteId : Option Nat) (descuento_input : ℚ) : Except VentaError VentaResult :=
  let descuento := if descuento_input < 0 then 0 else descuento_input
  match validar_stock productos s items with
  | .error e => .error e
  | .ok _ =>
      if metodos.contains metodoPagoId && clienteOk clientes clienteId then
        let subtotal := subtotal_calculado items
        let total := if subtotal - descuento < 0 then 0 else subtotal - descuento
        match procesar_lineas productos s items with
        | .error e => .error e
        | .ok r =>
            .ok { venta := { total := total, descuento := descuento,
                             metodo_pago := metodoPagoId, cliente := clienteId },
                  detalles := r.1, lotes := r.2 }
      else .error .notFound

/-- Amount taken from lote `l` by the decrement list of one line (0 when the
    line never touched `l`). -/
def consumido (upd : List (Nat × ℚ)) (l : Lote) : ℚ :=
  match upd.find? (fun e => l.id == e.1) with
  | some e => e.2
  | none => 0

/-- Pointwise form of `aplicar_descuentos` for a decrement list without
    repeated lote ids. -/
def aplicarFn (upd : List (Nat × ℚ)) (l : Lote) : Lote :=
  { l with cantidad_actual := l.cantidad_actual - consumido upd l }

/-- Sum of remaining quantities over all lotes of one product: the measure the
    stock-conservation property speaks about. -/
def sum_producto (s : List Lote) (p : Nat) : ℚ :=
  ((s.filter (fun l => l.producto == p)).map Lote.cantidad_actual).sum

/-! ## Cash-closing engine (applications/cierres) -/

/-- One row of the Venta table as seen by the closing engine: its total, its
    (nullable, `on_delete=SET_NULL`) payment-method reference and its nullable
    closing reference. -/
structure VentaRow where
  id : Nat
  total : ℚ
  metodo_pago : Option Nat
  cierre : Option Nat
  deriving DecidableEq, Repr

structure MetodoPagoRow where
  id : Nat
  nombre : String
  deriving DecidableEq, Repr

structure DetalleCierreRow where
  metodo_pago : Nat
  monto_sistema : ℚ
  monto_arqueo : ℚ
  deriving DecidableEq, Repr

/-- DetalleCierre.diferencia (cierres/models.py lines 72-80):
    monto_arqueo - monto_sistema. -/
def DetalleCierreRow.diferencia (d : DetalleCierreRow) : ℚ :=
  d.monto_arqueo - d.monto_sistema

structure CierreCajaRow where
  total_sistema : ℚ
  total_arqueo : ℚ
  diferencia : ℚ
  deriving DecidableEq, Repr

/-- Outcomes of RealizarCierreView.post other than success: the
    "No hay ventas pendientes" early return (line 116), the per-method
    validation message of the `except ValueError` clause (lines 146-148), and
    the generic `except Exception` handler (lines 186-190). -/
inductive CierreError where
  | nothingPending
  | validationError (metodo : String)
  | unexpected
  deriving DecidableEq, Repr

/-- Classification of the POST value for one `monto_<id>` field after the
    comma-to-dot normalisation of line 144: absent (POST.get default `'0'`,
    which also covers the empty string mapped to `'0'` at line 145), a
    parseable numeric string with value q, or a non-numeric string. -/
inductive MontoInput where
  | absent
  | valid (q : ℚ)
  | invalid
  deriving DecidableEq, Repr

/-- The Python exception classes relevant to the closing loop.  CPython's
    `decimal.InvalidOperation` derives from `DecimalException`, which derives
    from `ArithmeticError` — it is not a `ValueError`. -/
inductive PyExc where
  | valueError
  | invalidOperation
  deriving DecidableEq, Repr

/-- `Decimal(monto_contado_str if monto_contado_str else '0')` (line 145):
    an absent field parses as 0, and a non-numeric string raises
    `decimal.InvalidOperation`. -/
def parseMonto : MontoInput → Except PyExc ℚ
  | .absent => .ok 0
  | .valid q => .ok q
  | .invalid => .error .invalidOperation

/-- `mapa_subtotales_sistema` entry for one group key (lines 123-130): the sum
    of `total` over the pending sales whose (possibly null) payment-method
    reference equals the key. -/
def subtotal_metodo (vs : List VentaRow) (m : Option Nat) : ℚ :=
  ((vs.filter (fun v => v.metodo_pago == m)).map VentaRow.total).sum

/-- The `for metodo in metodos_pago_con_ventas` loop (lines 139-160): parse the
    submitted amount for each method; `except ValueError` would return the
    per-method validation message, but `Decimal` raises
    `decimal.InvalidOperation`, which escapes to the outer generic handler.
    On success one DetalleCierre per method is staged. -/
def procesar_montos (vs : List VentaRow) (montos : Nat → MontoInput) :
    List MetodoPagoRow → Except CierreError (List DetalleCierreRow)
  | [] => .ok []
  | m :: rest =>
      match parseMonto (montos m.id) with
      | .error e =>
          match e with
          | .valueError => .error (.validationError m.nombre)
          | .invalidOperation => .error .unexpected
      | .ok q =>
          match procesar_montos vs montos rest with
          | .error e => .error e
          | .ok ds =>
              .ok ({ metodo_pago := m.id, monto_sistema := subtotal_metodo vs (some m.id),
                     monto_arqueo := q } :: ds)

/-- RealizarCierreView.post (cierres/views.py lines 92-190), the spec's
    `close_register`: lock the pending sales (cierre IS NULL), bail out with
    the nothing-pending message when there are none, recompute the system
    totals from the locked rows, iterate payment methods that have at least
    one pending sale (`id__in` over the group keys never matches a NULL key),
    build the closing header with
    `diferencia = total_arqueo_calculado - total_sistema_final`, persist the
    details, and stamp every locked sale with the new closing id.  The whole
    body runs in `transaction.atomic()`, so an error outcome persists nothing.
    The ORM iterates methods ordered by `nombre`; the totals below are sums, so
    the iteration order is irrelevant to them and the model keeps table order. -/
def close_register (metodos : List MetodoPagoRow) (ventas : List VentaRow)
    (montos : Nat → MontoInput) (cierreId : Nat) :
    Except CierreError (CierreCajaRow × List DetalleCierreRow × List VentaRow) :=
  let ventas_a_cerrar := ventas.filter (fun v => v.cierre == none)
  if ventas_a_cerrar.isEmpty then .error .nothingPending
  else
    let total_sistema_final := (ventas_a_cerrar.map VentaRow.total).sum
    let metodos_con_ventas :=
      metodos.filter (fun m => ventas_a_cerrar.any (fun v => v.metodo_pago == some m.id))
    match procesar_montos ventas_a_cerrar montos metodos_con_ventas with
    | .error e => .error e
    | .ok detalles =>
        let total_arqueo_calculado := (detalles.map DetalleCierreRow.monto_arqueo).sum
        .ok ({ total_sistema := total_sistema_final,
               total_arqueo := total_arqueo_calculado,
               diferencia := total_arqueo_calculado - total_sistema_final },
             detalles,
             ventas.map fun v =>
               if v.cierre == none then { v with cierre := some cierreId } else v)

/-! ## Order lemmas for the FEFO sort -/

lemma fechaLT_le {a b : Option Int} (h : fechaLT a b = true) : fechaLE a b = true := by
  cases a <;> cases b <;> simp_all [fechaLT, fechaLE] <;> omega

lemma fechaLT_false_le {a b : Option Int} (h : fechaLT a b = false) : fechaLE b a = true := by
  cases a <;> cases b <;> simp_all [fechaLT, fechaLE]

lemma fechaLE_trans {a b c : Option Int} (h1 : fechaLE a b = true) (h2 : fechaLE b c = true) :
    fechaLE a c = true := by
  cases a <;> cases b <;> cases c <;> simp_all [fechaLE] <;> omega

lemma insertLote_perm (l : Lote) (ls : List Lote) : (insertLote l ls).Perm (l :: ls) := by
  induction ls with
  | nil => simp [insertLote]
  | cons x xs ih =>
      simp only [insertLote]
      by_cases h : fechaLT x.fecha_vencimiento l.fecha_vencimiento = true
      · rw [if_pos h]
        exact (ih.cons x).trans (List.Perm.swap l x xs)
      · rw [if_neg h]

lemma sortLotes_perm (ls : List Lote) : (sortLotes ls).Perm ls := by
  induction ls with
  | nil => simp [sortLotes]
  | cons l ls ih => exact (insertLote_perm l (sortLotes ls)).trans (ih.cons l)

lemma mem_sortLotes {l : Lote} {ls : List Lote} : l ∈ sortLotes ls ↔ l ∈ ls :=
  (sortLotes_perm ls).mem_iff

lemma insertLote_pairwise {l : Lote} {ls : List Lote}
    (h : ls.Pairwise (fun a b => fechaLE a.fecha_vencimiento b.fecha_vencimiento = true)) :
    (insertLote l ls).Pairwise
      (fun a b => fechaLE a.fecha_vencimiento b.fecha_vencimiento = true) := by
  induction ls with
  | nil => simp [insertLote]
  | cons x xs ih =>
      rcases List.pairwise_cons.mp h with ⟨hx, hxs⟩
      simp only [insertLote]
      by_cases hlt : fechaLT x.fecha_vencimiento l.fecha_vencimiento = true
      · rw [if_pos hlt]
        refine List.pairwise_cons.mpr ⟨?_, ih hxs⟩
        intro b hb
        rcases List.mem_cons.mp ((insertLote_perm l xs).mem_iff.mp hb) with hb | hb
        · rw [hb]; exact fechaLT_le hlt
        · exact hx b hb
      · rw [if_neg hlt]
        have hle : fechaLE l.fecha_vencimiento x.fecha_vencimiento = true :=
          fechaLT_false_le (Bool.eq_false_iff.mpr hlt)
        refine List.pairwise_cons.mpr ⟨?_, h⟩
        intro b hb
        rcases List.mem_cons.mp hb with hb | hb
        · rw [hb]; exact hle
        · exact fechaLE_trans hle (hx b hb)

lemma sortLotes_pairwise (ls : List Lote) :
    (sortLotes ls).Pairwise
      (fun a b => fechaLE a.fecha_vencimiento b.fecha_vencimiento = true) := by
  induction ls with
  | nil => simp [sortLotes]
  | cons l ls ih => exact insertLote_pairwise ih

/-! ## Consumption-loop lemmas -/

lemma consumir_lotes_nonpos {q : ℚ} (hq : q ≤ 0) (L : List Lote) :
    consumir_lotes q L = (0, []) := by
  cases L <;> simp [consumir_lotes, hq]

lemma consumir_keys_sublist (q : ℚ) (L : List Lote) :
    ((consumir_lotes q L).2.map Prod.fst).Sublist (L.map Lote.id) := by
  induction L generalizing q with
  | nil => simp [consumir_lotes]
  | cons lote rest ih =>
      by_cases hq : q ≤ 0
      · simp [consumir_lotes, hq]
      · simp only [consumir_lotes, if_neg hq, List.map_cons]
        exact (ih _).cons₂ _

lemma consumir_mem {q : ℚ} {L : List Lote} (hL : ∀ l ∈ L, 0 < l.cantidad_actual) :
    ∀ e ∈ (consumir_lotes q L).2, ∃ l ∈ L, l.id = e.1 ∧ 0 ≤ e.2 ∧ e.2 ≤ l.cantidad_actual := by
  induction L generalizing q with
  | nil => simp [consumir_lotes]
  | cons lote rest ih =>
      by_cases hq : q ≤ 0
      · simp [consumir_lotes, hq]
      · intro e he
        simp only [consumir_lotes, if_neg hq] at he
        rcases List.mem_cons.mp he with he | he
        · refine ⟨lote, List.mem_cons_self _ _, ?_⟩
          rw [he]
          refine ⟨rfl, ?_, min_le_right _ _⟩
          exact le_min (le_of_lt (lt_of_not_le hq)) (le_of_lt (hL lote (List.mem_cons_self _ _)))
        · rcases ih (fun l hl => hL l (List.mem_cons_of_mem _ hl)) e he with ⟨l, hl, hrest⟩
          exact ⟨l, List.mem_cons_of_mem _ hl, hrest⟩

lemma sum_map_cant_nonneg {L : List Lote} (hL : ∀ l ∈ L, 0 < l.cantidad_actual) :
    0 ≤ (L.map Lote.cantidad_actual).sum := by
  induction L with
  | nil => simp
  | cons l rest ih =>
      simp only [List.map_cons, List.sum_cons]
      exact add_nonneg (le_of_lt (hL l (List.mem_cons_self _ _)))
        (ih fun x hx => hL x (List.mem_cons_of_mem _ hx))

lemma consumir_total {q : ℚ} {L : List Lote} (hq : 0 ≤ q)
    (hL : ∀ l ∈ L, 0 < l.cantidad_actual) :
    ((consumir_lotes q L).2.map Prod.snd).sum = min q ((L.map Lote.cantidad_actual).sum) := by
  induction L generalizing q with
  | nil => simp [consumir_lotes, min_eq_right hq]
  | cons lote rest ih =>
      have hpos : 0 < lote.cantidad_actual := hL lote (List.mem_cons_self _ _)
      have hrest : ∀ l ∈ rest, 0 < l.cantidad_actual :=
        fun l hl => hL l (List.mem_cons_of_mem _ hl)
      by_cases hq0 : q ≤ 0
      · have hq' : q = 0 := le_antisymm hq0 hq
        subst hq'
        rw [consumir_lotes_nonpos le_rfl]
        have : (0 : ℚ) ≤ lote.cantidad_actual + (rest.map Lote.cantidad_actual).sum :=
          add_nonneg (le_of_lt hpos) (sum_map_cant_nonneg hrest)
        simp [min_eq_left this]
      · simp only [consumir_lotes, if_neg hq0, List.map_cons, List.sum_cons]
        have hd : 0 ≤ q - min q lote.cantidad_actual := by
          have := min_le_left q lote.cantidad_actual
          linarith
        rw [ih hd hrest]
        rcases le_total q lote.cantidad_actual with hcase | hcase
        · rw [min_eq_left hcase]
          have h1 : q - q = 0 := by ring
          rw [h1, min_eq_left (sum_map_cant_nonneg hrest)]
          have h2 : q ≤ lote.cantidad_actual + (rest.map Lote.cantidad_actual).sum :=
            le_add_of_le_of_nonneg hcase (sum_map_cant_nonneg hrest)
          rw [min_eq_left h2]
          ring
        · rw [min_eq_right hcase]
          rcases le_total (q - lote.cantidad_actual) ((rest.map Lote.cantidad_actual).sum)
            with hc2 | hc2
          · rw [min_eq_left hc2]
            have : q ≤ lote.cantidad_actual + (rest.map Lote.cantidad_actual).sum := by
              linarith
            rw [min_eq_left this]
            ring
          · rw [min_eq_right hc2]
            have : lote.cantidad_actual + (rest.map Lote.cantidad_actual).sum ≤ q := by
              linarith
            rw [min_eq_right this]

/-! ## Applying the per-lote decrements to the table -/

lemma consumido_eq_zero {upd : List (Nat × ℚ)} {l : Lote}
    (h : l.id ∉ upd.map Prod.fst) : consumido upd l = 0 := by
  have hfind : upd.find? (fun e => l.id == e.1) = none := by
    apply List.find?_eq_none.mpr
    intro e he
    simp only [beq_iff_eq]
    intro hc
    exact h (hc ▸ List.mem_map_of_mem Prod.fst he)
  simp [consumido, hfind]

lemma aplicarFn_id {upd : List (Nat × ℚ)} {l : Lote} (h : l.id ∉ upd.map Prod.fst) :
    aplicarFn upd l = l := by
  simp [aplicarFn, consumido_eq_zero h]

lemma aplicarFn_id_of_nil (l : Lote) : aplicarFn [] l = l := by
  simp [aplicarFn, consumido]

lemma aplicar_descuentos_eq_map {upd : List (Nat × ℚ)} :
    ∀ {s : List Lote}, (upd.map Prod.fst).Nodup →
    aplicar_descuentos s upd = s.map (aplicarFn upd) := by
  induction upd with
  | nil =>
      intro s _
      simp only [aplicar_descuentos]
      rw [List.map_congr_left fun l _ => aplicarFn_id_of_nil l]
      simp
  | cons e rest ih =>
      intro s h
      rw [List.map_cons] at h
      obtain ⟨hni, hrest⟩ := List.nodup_cons.mp h
      simp only [aplicar_descuentos]
      rw [ih hrest, descontar, List.map_map]
      apply List.map_congr_left
      intro l _
      by_cases hid : l.id = e.1
      · have hfind : rest.find? (fun x => e.1 == x.1) = none := by
          apply List.find?_eq_none.mpr
          intro x hx
          simp only [beq_iff_eq]
          intro hc
          apply hni
          rw [hc]
          exact List.mem_map_of_mem Prod.fst hx
        simp [Function.comp, aplicarFn, consumido, hid, hfind, List.find?_cons_of_pos]
      · have hbeq : (l.id == e.1) = false := beq_eq_false_iff_ne.mpr hid
        simp [Function.comp, aplicarFn, consumido, hbeq, List.find?_cons_of_neg]

lemma sum_map_sub (P : List Lote) (f g : Lote → ℚ) :
    (P.map (fun l => f l - g l)).sum = (P.map f).sum - (P.map g).sum := by
  induction P with
  | nil => simp
  | cons x xs ih =>
      simp only [List.map_cons, List.sum_cons, ih]
      ring

lemma sum_consumido_notmem {P : List Lote} {i : Nat} {d : ℚ} {rest : List (Nat × ℚ)}
    (h : i ∉ P.map Lote.id) :
    (P.map (consumido ((i, d) :: rest))).sum = (P.map (consumido rest)).sum := by
  induction P with
  | nil => simp
  | cons x xs ih =>
      have hxi : (x.id == i) = false := by
        apply beq_eq_false_iff_ne.mpr
        intro hc
        apply h
        rw [List.map_cons, ← hc]
        exact List.mem_cons_self _ _
      have hxs : i ∉ xs.map Lote.id := by
        intro hc
        exact h (by rw [List.map_cons]; exact List.mem_cons_of_mem _ hc)
      simp only [List.map_cons, List.sum_cons, ih hxs]
      congr 1
      simp [consumido, List.find?_cons_of_neg, hxi]

lemma sum_consumido_cons {i : Nat} {rest : List (Nat × ℚ)} (d : ℚ) :
    ∀ {P : List Lote}, (P.map Lote.id).Nodup → i ∈ P.map Lote.id →
    i ∉ rest.map Prod.fst →
    (P.map (consumido ((i, d) :: rest))).sum = d + (P.map (consumido rest)).sum := by
  intro P
  induction P with
  | nil => intro _ hi _; simp at hi
  | cons x xs ih =>
      intro hP hi hrest
      rw [List.map_cons] at hP hi
      obtain ⟨hx_notin, hxs_nodup⟩ := List.nodup_cons.mp hP
      by_cases hx : x.id = i
      · have hxs : i ∉ xs.map Lote.id := hx ▸ hx_notin
        have h1 : consumido ((i, d) :: rest) x = d := by
          simp [consumido, List.find?_cons_of_pos, hx]
        have h2 : consumido rest x = 0 := consumido_eq_zero (hx ▸ hrest)
        simp only [List.map_cons, List.sum_cons, h1, h2, sum_consumido_notmem hxs]
        ring
      · have hi' : i ∈ xs.map Lote.id := by
          rcases List.mem_cons.mp hi with h | h
          · exact absurd h.symm hx
          · exact h
        have hbeq : (x.id == i) = false := beq_eq_false_iff_ne.mpr hx
        have h1 : consumido ((i, d) :: rest) x = consumido rest x := by
          simp [consumido, List.find?_cons_of_neg, hbeq]
        simp only [List.map_cons, List.sum_cons, h1, ih hxs_nodup hi' hrest]
        ring

lemma sum_consumido_eq :
    ∀ {upd : List (Nat × ℚ)} {P : List Lote},
    (P.map Lote.id).Nodup → (upd.map Prod.fst).Nodup →
    (∀ k ∈ upd.map Prod.fst, k ∈ P.map Lote.id) →
    (P.map (consumido upd)).sum = (upd.map Prod.snd).sum := by
  intro upd
  induction upd with
  | nil =>
      intro P _ _ _
      rw [List.map_congr_left fun l _ => consumido_eq_zero (by simp)]
      simp
  | cons e rest ih =>
      intro P hP hupd hsub
      rw [List.map_cons] at hupd
      obtain ⟨hni, hrest⟩ := List.nodup_cons.mp hupd
      have hi : e.1 ∈ P.map Lote.id := hsub e.1 (by simp)
      have step := sum_consumido_cons e.2 hP hi hni
      rw [List.map_cons, List.sum_cons, ← ih hP hrest (fun k hk => hsub k (by simp [hk]))]
      simpa using step

/-! ## Facts about the available-lot query and one line of consumption -/

lemma lotes_disponibles_mem {s : List Lote} {p : Nat} :
    ∀ l ∈ lotes_disponibles s p, l.producto = p ∧ 0 < l.cantidad_actual ∧ l ∈ s := by
  intro l hl
  have hmem := mem_sortLotes.mp hl
  rw [List.mem_filter] at hmem
  rcases hmem with ⟨hs, hcond⟩
  rw [esDisponible, Bool.and_eq_true, beq_iff_eq, decide_eq_true_eq] at hcond
  exact ⟨hcond.1, hcond.2, hs⟩

lemma lotes_disponibles_ids_nodup {s : List Lote} {p : Nat}
    (h : (s.map Lote.id).Nodup) : ((lotes_disponibles s p).map Lote.id).Nodup := by
  have hperm : ((lotes_disponibles s p).map Lote.id).Perm
      ((s.filter (esDisponible p)).map Lote.id) := (sortLotes_perm _).map _
  exact hperm.nodup_iff.mpr (((List.filter_sublist s).map Lote.id).nodup h)

lemma sum_lotes_disponibles (s : List Lote) (p : Nat) :
    ((lotes_disponibles s p).map Lote.cantidad_actual).sum = stock_total s p :=
  ((sortLotes_perm _).map Lote.cantidad_actual).sum_eq

lemma lote_id_inj {s : List Lote} (h : (s.map Lote.id).Nodup) {a b : Lote}
    (ha : a ∈ s) (hb : b ∈ s) (hab : a.id = b.id) : a = b := by
  by_contra hne
  have hpw : s.Pairwise (fun x y => x.id ≠ y.id) := List.pairwise_map.mp h
  have hsymm : Symmetric fun x y : Lote => x.id ≠ y.id := by
    intro x y hxy he
    exact hxy he.symm
  exact (hpw.forall hsymm ha hb hne) hab

lemma stock_total_congr {s s' : List Lote} {p : Nat}
    (h : s'.filter (fun l => l.producto == p) = s.filter (fun l => l.producto == p)) :
    stock_total s' p = stock_total s p := by
  have hf : ∀ t : List Lote, t.filter (esDisponible p) =
      (t.filter (fun l => l.producto == p)).filter
        (fun l => decide (0 < l.cantidad_actual)) := by
    intro t
    rw [List.filter_filter]
    apply List.filter_congr
    intro l _
    rw [esDisponible, Bool.and_comm]
  unfold stock_total
  rw [hf s', hf s, h]

lemma sum_producto_congr {s s' : List Lote} {p : Nat}
    (h : s'.filter (fun l => l.producto == p) = s.filter (fun l => l.producto == p)) :
    sum_producto s' p = sum_producto s p := by
  unfold sum_producto
  rw [h]

lemma map_id_of_eq {l : List Lote} {f : Lote → Lote} (h : ∀ x ∈ l, f x = x) :
    l.map f = l :=
  (List.map_congr_left h).trans (List.map_id l)

lemma filter_map_aplicarFn (s : List Lote) (upd : List (Nat × ℚ)) (p : Nat) :
    (s.map (aplicarFn upd)).filter (fun l => l.producto == p) =
      (s.filter (fun l => l.producto == p)).map (aplicarFn upd) := by
  rw [List.filter_map]
  congr 1

lemma procesar_linea_ok {s : List Lote} {producto : Producto} {item : ItemData}
    (hq : item.quantity ≠ 0) :
    procesar_linea s producto item =
      .ok (DetalleVenta.crear producto.id item.quantity item.price
             ((consumir_lotes item.quantity (lotes_disponibles s producto.id)).1 /
               item.quantity),
           aplicar_descuentos s
             (consumir_lotes item.quantity (lotes_disponibles s producto.id)).2) := by
  simp [procesar_linea, hq]

lemma procesar_linea_facts {s : List Lote} {producto : Producto} {item : ItemData}
    {det : DetalleVenta} {s' : List Lote}
    (hid : (s.map Lote.id).Nodup)
    (h : procesar_linea s producto item = .ok (det, s')) :
    s'.map Lote.id = s.map Lote.id ∧
    (∀ q, q ≠ producto.id →
      s'.filter (fun l => l.producto == q) = s.filter (fun l => l.producto == q)) ∧
    (0 ≤ item.quantity →
      sum_producto s' producto.id =
        sum_producto s producto.id - min item.quantity (stock_total s producto.id)) ∧
    (∀ l' ∈ s', 0 ≤ l'.cantidad_actual ∨ l' ∈ s) ∧
    det.cantidad = item.quantity ∧
    det.subtotal = det.cantidad * det.precio_unitario_momento := by
  by_cases hq : item.quantity = 0
  · rw [procesar_linea] at h
    simp [hq] at h
  · rw [procesar_linea_ok hq] at h
    have hpair := Except.ok.inj h
    have hdet : det = DetalleVenta.crear producto.id item.quantity item.price
        ((consumir_lotes item.quantity (lotes_disponibles s producto.id)).1 /
          item.quantity) := (Prod.mk.inj hpair).1.symm
    have hs' : s' = aplicar_descuentos s
        (consumir_lotes item.quantity (lotes_disponibles s producto.id)).2 :=
      (Prod.mk.inj hpair).2.symm
    set S := lotes_disponibles s producto.id with hS
    set upd := (consumir_lotes item.quantity S).2 with hupd
    have hSpos : ∀ l ∈ S, 0 < l.cantidad_actual :=
      fun l hl => (lotes_disponibles_mem l hl).2.1
    have hSids : (S.map Lote.id).Nodup := lotes_disponibles_ids_nodup hid
    have hkeys_sub : (upd.map Prod.fst).Sublist (S.map Lote.id) :=
      consumir_keys_sublist item.quantity S
    have hkeys_nodup : (upd.map Prod.fst).Nodup := hkeys_sub.nodup hSids
    have hkey_lote : ∀ k ∈ upd.map Prod.fst,
        ∃ l ∈ s, l.id = k ∧ l.producto = producto.id ∧ 0 < l.cantidad_actual := by
      intro k hk
      rcases List.mem_map.mp hk with ⟨e, he, hek⟩
      rcases consumir_mem hSpos e he with ⟨l, hl, hid_eq, _, _⟩
      rcases lotes_disponibles_mem l hl with ⟨hprod, hpos, hmem⟩
      exact ⟨l, hmem, hek ▸ hid_eq, hprod, hpos⟩
    have hmap : s' = s.map (aplicarFn upd) := by
      rw [hs', aplicar_descuentos_eq_map hkeys_nodup]
    constructor
    · rw [hmap, List.map_map]
      apply List.map_congr_left
      intro l _
      rw [Function.comp_apply, aplicarFn]
    constructor
    · intro q hqne
      rw [hmap, filter_map_aplicarFn]
      apply map_id_of_eq
      intro l hl
      rw [List.mem_filter] at hl
      apply aplicarFn_id
      intro hmemk
      rcases hkey_lote l.id hmemk with ⟨l2, hl2s, hl2id, hl2prod, _⟩
      have : l2 = l := lote_id_inj hid hl2s hl.1 hl2id
      rw [this] at hl2prod
      rw [beq_iff_eq] at hl
      exact hqne (hl.2 ▸ hl2prod)
    constructor
    · intro hq0
      have hP : ((s.filter (fun l => l.producto == producto.id)).map Lote.id).Nodup :=
        ((List.filter_sublist s).map Lote.id).nodup hid
      have hcover : ∀ k ∈ upd.map Prod.fst,
          k ∈ (s.filter (fun l => l.producto == producto.id)).map Lote.id := by
        intro k hk
        rcases hkey_lote k hk with ⟨l, hls, hlid, hlprod, _⟩
        apply List.mem_map.mpr
        exact ⟨l, List.mem_filter.mpr ⟨hls, beq_iff_eq.mpr hlprod⟩, hlid⟩
      have hsum_upd : (upd.map Prod.snd).sum = min item.quantity (stock_total s producto.id) := by
        rw [hupd, consumir_total hq0 hSpos, sum_lotes_disponibles]
      rw [hmap, sum_producto, filter_map_aplicarFn]
      have : ((s.filter (fun l => l.producto == producto.id)).map (aplicarFn upd)).map
          Lote.cantidad_actual =
          (s.filter (fun l => l.producto == producto.id)).map
            (fun l => l.cantidad_actual - consumido upd l) := by
        rw [List.map_map]
        apply List.map_congr_left
        intro l _
        rw [Function.comp_apply, aplicarFn]
      rw [this, sum_map_sub, sum_consumido_eq hP hkeys_nodup hcover, hsum_upd, sum_producto]
    constructor
    · intro l' hl'
      rw [hmap] at hl'
      rcases List.mem_map.mp hl' with ⟨l, hls, hfl⟩
      by_cases hmem : l.id ∈ upd.map Prod.fst
      · left
        have hsome : (upd.find? (fun x => l.id == x.1)).isSome := by
          rw [List.find?_isSome]
          rcases List.mem_map.mp hmem with ⟨e, he, hek⟩
          exact ⟨e, he, beq_iff_eq.mpr hek.symm⟩
        rcases Option.isSome_iff_exists.mp hsome with ⟨e, hfind⟩
        have heupd : e ∈ upd := List.mem_of_find?_eq_some hfind
        have hpred : l.id = e.1 := by
          have hp := List.find?_some hfind
          simpa using hp
        rcases consumir_mem hSpos e heupd with ⟨lS, hlS, hlSid, hd0, hdle⟩
        rcases lotes_disponibles_mem lS hlS with ⟨_, _, hlSmem⟩
        have hleq : lS = l := lote_id_inj hid hlSmem hls (hlSid.trans hpred.symm)
        have hcons : consumido upd l = e.2 := by rw [consumido, hfind]
        rw [← hfl]
        show (0 : ℚ) ≤ (aplicarFn upd l).cantidad_actual
        rw [aplicarFn]
        show (0 : ℚ) ≤ l.cantidad_actual - consumido upd l
        rw [hcons]
        have hle2 : e.2 ≤ l.cantidad_actual := hleq ▸ hdle
        linarith
      · right
        rw [← hfl, aplicarFn_id hmem]
        exact hls
    · rw [hdet]
      exact ⟨rfl, rfl⟩

/-! ## The per-cart loop, pre-validation and settle_sale inversion -/

lemma procesar_lineas_facts (productos : List Producto) :
    ∀ (items : List (Nat × ItemData)) (s : List Lote) (r : List DetalleVenta × List Lote),
    (s.map Lote.id).Nodup →
    (items.map Prod.fst).Nodup →
    procesar_lineas productos s items = .ok r →
    r.2.map Lote.id = s.map Lote.id ∧
    (∀ q, q ∉ items.map Prod.fst →
      r.2.filter (fun l => l.producto == q) = s.filter (fun l => l.producto == q)) ∧
    (∀ e ∈ items, 0 ≤ e.2.quantity →
      sum_producto r.2 e.1 = sum_producto s e.1 - min e.2.quantity (stock_total s e.1)) ∧
    (∀ l' ∈ r.2, 0 ≤ l'.cantidad_actual ∨ l' ∈ s) ∧
    (∀ det ∈ r.1, det.subtotal = det.cantidad * det.precio_unitario_momento) := by
  intro items
  induction items with
  | nil =>
      intro s r _ _ h
      simp only [procesar_lineas] at h
      have hr := Except.ok.inj h
      subst hr
      refine ⟨rfl, fun q _ => rfl, ?_, fun l' hl' => Or.inr hl', ?_⟩
      · intro e he
        exact absurd he (List.not_mem_nil e)
      · intro det hd
        exact absurd hd (List.not_mem_nil det)
  | cons e rest ih =>
      intro s r hid hkeys h
      rw [List.map_cons] at hkeys
      obtain ⟨he_notin, hrest_nodup⟩ := List.nodup_cons.mp hkeys
      simp only [procesar_lineas] at h
      split at h
      · exact absurd h (by simp)
      next producto hfind =>
        split at h
        · exact absurd h (by simp)
        next pr hlinea =>
          split at h
          · exact absurd h (by simp)
          next rs hrest =>
            have hr := Except.ok.inj h
            subst hr
            have hprod_id : producto.id = e.1 := by
              have hp := List.find?_some hfind
              simpa using hp
            obtain ⟨hids1, hfilters1, hsum1, hnn1, hcant1, hsub1⟩ :=
              procesar_linea_facts hid hlinea
            have hid1 : (pr.2.map Lote.id).Nodup := by rw [hids1]; exact hid
            obtain ⟨hids2, hfilters2, hsum2, hnn2, hsub2⟩ :=
              ih pr.2 rs hid1 hrest_nodup hrest
            refine ⟨hids2.trans hids1, ?_, ?_, ?_, ?_⟩
            · intro q hq
              rw [List.map_cons] at hq
              have hq1 : q ≠ e.1 := fun hc => hq (hc ▸ List.mem_cons_self _ _)
              have hq2 : q ∉ rest.map Prod.fst :=
                fun hc => hq (List.mem_cons_of_mem _ hc)
              exact (hfilters2 q hq2).trans (hfilters1 q (hprod_id ▸ hq1))
            · intro e' he' hq0
              rcases List.mem_cons.mp he' with rfl | hmem
              · have h1 := hsum1 hq0
                rw [hprod_id] at h1
                have h2 : sum_producto rs.2 e'.1 = sum_producto pr.2 e'.1 :=
                  sum_producto_congr (hfilters2 e'.1 he_notin)
                rw [h2, h1]
              · have hne : e'.1 ≠ e.1 := by
                  intro hc
                  exact he_notin (hc ▸ List.mem_map_of_mem Prod.fst hmem)
                have hfe : pr.2.filter (fun l => l.producto == e'.1) =
                    s.filter (fun l => l.producto == e'.1) :=
                  hfilters1 e'.1 (hprod_id ▸ hne)
                have h2 := hsum2 e' hmem hq0
                rw [h2, sum_producto_congr hfe, stock_total_congr hfe]
            · intro l' hl'
              rcases hnn2 l' hl' with h0 | hmem
              · exact Or.inl h0
              · exact hnn1 l' hmem
            · intro det hd
              rcases List.mem_cons.mp hd with rfl | hmem
              · exact hsub1
              · exact hsub2 det hmem

lemma validar_stock_ok_spec {productos : List Producto} {s : List Lote} :
    ∀ {items : List (Nat × ItemData)}, validar_stock productos s items = .ok () →
    ∀ e ∈ items, e.2.quantity ≤ stock_total s e.1 := by
  intro items
  induction items with
  | nil =>
      intro _ e he
      exact absurd he (List.not_mem_nil e)
  | cons x rest ih =>
      intro h e he
      simp only [validar_stock] at h
      split at h
      · exact absurd h (by simp)
      next producto hfind =>
        split at h
        · exact absurd h (by simp)
        next hcond =>
          rcases List.mem_cons.mp he with rfl | hmem
          · exact le_of_not_lt hcond
          · exact ih h e hmem

lemma validar_stock_ok_of {productos : List Producto} {s : List Lote} :
    ∀ {items : List (Nat × ItemData)},
    (∀ e ∈ items, (productos.find? (fun p => p.id == e.1)).isSome) →
    (∀ e ∈ items, e.2.quantity ≤ stock_total s e.1) →
    validar_stock productos s items = .ok () := by
  intro items
  induction items with
  | nil => intro _ _; rfl
  | cons x rest ih =>
      intro hfound hstock
      rcases Option.isSome_iff_exists.mp (hfound x (List.mem_cons_self _ _)) with ⟨p, hp⟩
      simp only [validar_stock, hp]
      rw [if_neg (not_lt_of_le (hstock x (List.mem_cons_self _ _)))]
      exact ih (fun e he => hfound e (List.mem_cons_of_mem _ he))
        (fun e he => hstock e (List.mem_cons_of_mem _ he))

lemma validar_stock_append_error {productos : List Producto} {s : List Lote}
    {pid : Nat} {item : ItemData} {producto : Producto}
    (post : List (Nat × ItemData))
    (hfind : productos.find? (fun p => p.id == pid) = some producto)
    (hstock : stock_total s pid < item.quantity) :
    ∀ pre : List (Nat × ItemData),
    (∀ e ∈ pre, (productos.find? (fun p => p.id == e.1)).isSome ∧
      e.2.quantity ≤ stock_total s e.1) →
    validar_stock productos s (pre ++ (pid, item) :: post) =
      .error (.insufficientStock producto.nombre item.quantity (stock_total s pid)) := by
  intro pre
  induction pre with
  | nil =>
      intro _
      simp only [List.nil_append, validar_stock, hfind]
      rw [if_pos hstock]
  | cons x rest ih =>
      intro hpre
      rcases hpre x (List.mem_cons_self _ _) with ⟨hxs, hxq⟩
      rcases Option.isSome_iff_exists.mp hxs with ⟨p, hp⟩
      simp only [List.cons_append, validar_stock, hp]
      rw [if_neg (not_lt_of_le hxq)]
      exact ih (fun e he => hpre e (List.mem_cons_of_mem _ he))

lemma settle_sale_error_validar {productos : List Producto} {metodos clientes : List Nat}
    {s : List Lote} {items : List (Nat × ItemData)} {mId : Nat} {cId : Option Nat}
    {d : ℚ} {err : VentaError}
    (h : validar_stock productos s items = .error err) :
    settle_sale productos metodos clientes s items mId cId d = .error err := by
  unfold settle_sale
  rw [h]

lemma settle_sale_eval_ok {productos : List Producto} {metodos clientes : List Nat}
    {s : List Lote} {items : List (Nat × ItemData)} {mId : Nat} {cId : Option Nat}
    {d : ℚ} {pr : List DetalleVenta × List Lote}
    (hv : validar_stock productos s items = .ok ())
    (hb : (metodos.contains mId && clienteOk clientes cId) = true)
    (hp : procesar_lineas productos s items = .ok pr) :
    settle_sale productos metodos clientes s items mId cId d =
      .ok { venta := { total := if subtotal_calculado items - (if d < 0 then 0 else d) < 0
                                then 0
                                else subtotal_calculado items - (if d < 0 then 0 else d),
                       descuento := if d < 0 then 0 else d,
                       metodo_pago := mId, cliente := cId },
            detalles := pr.1, lotes := pr.2 } := by
  simp only [settle_sale, hv, hb, hp, if_true]

lemma settle_sale_eval_proc_error {productos : List Producto} {metodos clientes : List Nat}
    {s : List Lote} {items : List (Nat × ItemData)} {mId : Nat} {cId : Option Nat}
    {d : ℚ} {err : VentaError}
    (hv : validar_stock productos s items = .ok ())
    (hb : (metodos.contains mId && clienteOk clientes cId) = true)
    (hp : procesar_lineas productos s items = .error err) :
    settle_sale productos metodos clientes s items mId cId d = .error err := by
  simp only [settle_sale, hv, hb, hp, if_true]

lemma settle_sale_eval_notfound {productos : List Producto} {metodos clientes : List Nat}
    {s : List Lote} {items : List (Nat × ItemData)} {mId : Nat} {cId : Option Nat}
    {d : ℚ}
    (hv : validar_stock productos s items = .ok ())
    (hb : (metodos.contains mId && clienteOk clientes cId) = false) :
    settle_sale productos metodos clientes s items mId cId d = .error .notFound := by
  simp only [settle_sale, hv, hb, Bool.false_eq_true, if_false]

lemma settle_sale_ok_inv {productos : List Producto} {metodos clientes : List Nat}
    {s : List Lote} {items : List (Nat × ItemData)} {mId : Nat} {cId : Option Nat}
    {d : ℚ} {r : VentaResult}
    (h : settle_sale productos metodos clientes s items mId cId d = .ok r) :
    validar_stock productos s items = .ok () ∧
    procesar_lineas productos s items = .ok (r.detalles, r.lotes) ∧
    r.venta.descuento = (if d < 0 then 0 else d) ∧
    r.venta.total =
      (if subtotal_calculado items - (if d < 0 then 0 else d) < 0 then 0
       else subtotal_calculado items - (if d < 0 then 0 else d)) := by
  cases hv : validar_stock productos s items with
  | error err =>
      rw [settle_sale_error_validar hv] at h
      exact absurd h (by simp)
  | ok u =>
      cases u
      by_cases hb : (metodos.contains mId && clienteOk clientes cId) = true
      · cases hp : procesar_lineas productos s items with
        | error err =>
            rw [settle_sale_eval_proc_error hv hb hp] at h
            exact absurd h (by simp)
        | ok pr =>
            rw [settle_sale_eval_ok hv hb hp] at h
            have hr := Except.ok.inj h
            subst hr
            exact ⟨rfl, rfl, rfl, rfl⟩
      · rw [settle_sale_eval_notfound hv (Bool.eq_false_iff.mpr hb)] at h
        exact absurd h (by simp)

lemma procesar_lineas_zero (productos : List Producto) :
    ∀ (items : List (Nat × ItemData)) (s : List Lote),
    (∀ e ∈ items, (productos.find? (fun p => p.id == e.1)).isSome) →
    (∃ e ∈ items, e.2.quantity = 0) →
    procesar_lineas productos s items = .error .unexpected := by
  intro items
  induction items with
  | nil =>
      intro s _ hz
      rcases hz with ⟨e, he, _⟩
      exact absurd he (List.not_mem_nil e)
  | cons x rest ih =>
      intro s hfound hz
      rcases Option.isSome_iff_exists.mp (hfound x (List.mem_cons_self _ _)) with ⟨p, hp⟩
      by_cases hq : x.2.quantity = 0
      · have hl : procesar_linea s p x.2 = .error .unexpected := by
          rw [procesar_linea]
          simp [hq]
        simp only [procesar_lineas, hp, hl]
      · rcases hz with ⟨e, he, hze⟩
        rcases List.mem_cons.mp he with rfl | hmem
        · exact absurd hze hq
        · simp only [procesar_lineas, hp, procesar_linea_ok hq]
          rw [ih _ (fun e' he' => hfound e' (List.mem_cons_of_mem _ he')) ⟨e, hmem, hze⟩]

/-! ## Cash-closing lemmas -/

lemma sum_filter_split (vs : List VentaRow) (p : VentaRow → Bool) :
    ((vs.filter p).map VentaRow.total).sum +
      ((vs.filter (fun v => !(p v))).map VentaRow.total).sum =
    (vs.map VentaRow.total).sum := by
  induction vs with
  | nil => simp
  | cons v rest ih =>
      by_cases hv : p v = true
      · simp [List.filter_cons, hv]
        linarith [ih]
      · have hv' : p v = false := Bool.eq_false_iff.mpr hv
        simp [List.filter_cons, hv']
        linarith [ih]

lemma subtotal_metodo_filter_ne {vs : List VentaRow} {k k' : Option Nat} (hne : k' ≠ k) :
    subtotal_metodo (vs.filter (fun v => !(v.metodo_pago == k))) k' =
      subtotal_metodo vs k' := by
  unfold subtotal_metodo
  rw [List.filter_filter]
  have hfc : vs.filter (fun a => a.metodo_pago == k' && !(a.metodo_pago == k)) =
      vs.filter (fun v => v.metodo_pago == k') := by
    apply List.filter_congr
    intro v _
    by_cases hv : v.metodo_pago = k'
    · have h1 : (v.metodo_pago == k') = true := beq_iff_eq.mpr hv
      have h2 : (v.metodo_pago == k) = false :=
        beq_eq_false_iff_ne.mpr (fun hc => hne (hv.symm.trans hc))
      simp [h1, h2]
    · have h1 : (v.metodo_pago == k') = false := beq_eq_false_iff_ne.mpr hv
      simp [h1]
  rw [hfc]

lemma sum_grouped (ks : List (Option Nat)) :
    ∀ (vs : List VentaRow), ks.Nodup → (∀ v ∈ vs, v.metodo_pago ∈ ks) →
    (ks.map (subtotal_metodo vs)).sum = (vs.map VentaRow.total).sum := by
  induction ks with
  | nil =>
      intro vs _ hcov
      have hnil : vs = [] := by
        cases vs with
        | nil => rfl
        | cons v rest => exact absurd (hcov v (List.mem_cons_self _ _)) (List.not_mem_nil _)
      rw [hnil]
      simp
  | cons k ks ih =>
      intro vs hnodup hcov
      obtain ⟨hk_notin, hks⟩ := List.nodup_cons.mp hnodup
      rw [List.map_cons, List.sum_cons]
      have hsplit := sum_filter_split vs (fun v => v.metodo_pago == k)
      have h2 : (ks.map (subtotal_metodo vs)).sum =
          (ks.map (subtotal_metodo (vs.filter (fun v => !(v.metodo_pago == k))))).sum := by
        rw [List.map_congr_left]
        intro k' hk'
        exact (subtotal_metodo_filter_ne (fun hc => hk_notin (by rw [← hc]; exact hk'))).symm
      have hcov2 : ∀ v ∈ vs.filter (fun v => !(v.metodo_pago == k)), v.metodo_pago ∈ ks := by
        intro v hv
        rw [List.mem_filter] at hv
        rcases hv with ⟨hvs, hvk⟩
        rcases List.mem_cons.mp (hcov v hvs) with hc | hc
        · rw [Bool.not_eq_true', beq_eq_false_iff_ne] at hvk
          exact absurd hc hvk
        · exact hc
      rw [h2, ih _ hks hcov2]
      have h1 : subtotal_metodo vs k =
          ((vs.filter (fun v => v.metodo_pago == k)).map VentaRow.total).sum := rfl
      rw [h1]
      linarith [hsplit]

lemma procesar_montos_facts {vs : List VentaRow} {montos : Nat → MontoInput} :
    ∀ {ms : List MetodoPagoRow} {ds : List DetalleCierreRow},
    procesar_montos vs montos ms = .ok ds →
    ∀ dd ∈ ds, dd.monto_sistema = subtotal_metodo vs (some dd.metodo_pago) ∧
      parseMonto (montos dd.metodo_pago) = .ok dd.monto_arqueo := by
  intro ms
  induction ms with
  | nil =>
      intro ds h dd hd
      simp only [procesar_montos] at h
      have := Except.ok.inj h
      subst this
      exact absurd hd (List.not_mem_nil dd)
  | cons m rest ih =>
      intro ds h dd hd
      simp only [procesar_montos] at h
      split at h
      · split at h
        · exact absurd h (by simp)
        · exact absurd h (by simp)
      next q hq =>
        split at h
        · exact absurd h (by simp)
        next ds0 hds0 =>
          have := Except.ok.inj h
          subst this
          rcases List.mem_cons.mp hd with rfl | hmem
          · exact ⟨rfl, hq⟩
          · exact ih hds0 dd hmem

lemma close_register_eval_ok {metodos : List MetodoPagoRow} {ventas : List VentaRow}
    {montos : Nat → MontoInput} {cid : Nat} {ds : List DetalleCierreRow}
    (hne : (ventas.filter (fun v => v.cierre == none)).isEmpty = false)
    (hm : procesar_montos (ventas.filter (fun v => v.cierre == none)) montos
      (metodos.filter (fun m => (ventas.filter (fun v => v.cierre == none)).any
        (fun v => v.metodo_pago == some m.id))) = .ok ds) :
    close_register metodos ventas montos cid =
      .ok ({ total_sistema := ((ventas.filter (fun v => v.cierre == none)).map
               VentaRow.total).sum,
             total_arqueo := (ds.map DetalleCierreRow.monto_arqueo).sum,
             diferencia := (ds.map DetalleCierreRow.monto_arqueo).sum -
               ((ventas.filter (fun v => v.cierre == none)).map VentaRow.total).sum },
           ds,
           ventas.map fun v =>
             if v.cierre == none then { v with cierre := some cid } else v) := by
  simp only [close_register, hne, hm, Bool.false_eq_true, if_false]

lemma close_register_error_montos {metodos : List MetodoPagoRow} {ventas : List VentaRow}
    {montos : Nat → MontoInput} {cid : Nat} {err : CierreError}
    (hne : (ventas.filter (fun v => v.cierre == none)).isEmpty = false)
    (hm : procesar_montos (ventas.filter (fun v => v.cierre == none)) montos
      (metodos.filter (fun m => (ventas.filter (fun v => v.cierre == none)).any
        (fun v => v.metodo_pago == some m.id))) = .error err) :
    close_register metodos ventas montos cid = .error err := by
  simp only [close_register, hne, hm, Bool.false_eq_true, if_false]

lemma close_register_ok_inv {metodos : List MetodoPagoRow} {ventas : List VentaRow}
    {montos : Nat → MontoInput} {cid : Nat} {c : CierreCajaRow}
    {ds : List DetalleCierreRow} {vs' : List VentaRow}
    (h : close_register metodos ventas montos cid = .ok (c, ds, vs')) :
    procesar_montos (ventas.filter (fun v => v.cierre == none)) montos
      (metodos.filter (fun m => (ventas.filter (fun v => v.cierre == none)).any
        (fun v => v.metodo_pago == some m.id))) = .ok ds ∧
    c.total_sistema = ((ventas.filter (fun v => v.cierre == none)).map VentaRow.total).sum ∧
    c.total_arqueo = (ds.map DetalleCierreRow.monto_arqueo).sum ∧
    c.diferencia = c.total_arqueo - c.total_sistema := by
  by_cases hne : (ventas.filter (fun v => v.cierre == none)).isEmpty = true
  · have hclose : close_register metodos ventas montos cid = .error .nothingPending := by
      simp only [close_register, hne, if_true]
    rw [hclose] at h
    exact absurd h (by simp)
  · have hne' : (ventas.filter (fun v => v.cierre == none)).isEmpty = false :=
      Bool.eq_false_iff.mpr hne
    cases hm : procesar_montos (ventas.filter (fun v => v.cierre == none)) montos
        (metodos.filter (fun m => (ventas.filter (fun v => v.cierre == none)).any
          (fun v => v.metodo_pago == some m.id))) with
    | error err =>
        rw [close_register_error_montos hne' hm] at h
        exact absurd h (by simp)
    | ok ds0 =>
        rw [close_register_eval_ok hne' hm] at h
        have htriple := Except.ok.inj h
        obtain ⟨h1, h2⟩ := Prod.mk.inj htriple
        obtain ⟨h2a, _⟩ := Prod.mk.inj h2
        subst h1
        subst h2a
        exact ⟨rfl, rfl, rfl, rfl⟩

/-! ## Claim theorems -/

/-- Claim C1, counterexample: in the spec's concrete scenario — Batch1 qty 5
    cost 10 expiry 2025-01-01, Batch2 qty 10 cost 12 expiry 2025-06-01, selling
    8 units at price 20 — the sale line's recorded unit cost is
    (5*10 + 3*12)/8 = 43/4 = 10.75, and not 9.25 as the claim computes; the
    claim's own formula evaluates to 10.75. -/
theorem C1_counterexample :
    ∃ r, settle_sale [⟨1, "P"⟩] [1] []
        [⟨1, 1, 5, 10, some 20250101⟩, ⟨2, 1, 10, 12, some 20250601⟩]
        [(1, ⟨8, 20⟩)] 1 none 0 = .ok r ∧
      r.detalles.map DetalleVenta.precio_compra_momento = [43/4] ∧
      ((43 : ℚ)/4 = (5*10 + 3*12)/8) ∧ ((43 : ℚ)/4 ≠ 925/100) := by
  refine ⟨{ venta := ⟨160, 0, 1, none⟩, detalles := [⟨1, 8, 20, 43/4, 160⟩],
            lotes := [⟨1, 1, 0, 10, some 20250101⟩, ⟨2, 1, 7, 12, some 20250601⟩] },
          ?_, by norm_num, by norm_num, by norm_num⟩
  norm_num [settle_sale, validar_stock, stock_total, esDisponible, lotes_disponibles,
    sortLotes, insertLote, fechaLT, consumir_lotes, descontar, aplicar_descuentos,
    procesar_linea, procesar_lineas, subtotal_calculado, clienteOk, DetalleVenta.crear,
    List.find?, List.contains, List.filter]

/-- Claim C1, amended: in the same scenario the settlement consumes the
    nearer-expiry batch fully before the next (Batch1.remaining becomes 0,
    Batch2.remaining becomes 7) and records a sale line with subtotal
    8*20 = 160 and unit cost (5*10 + 3*12)/8 = 10.75. -/
theorem C1_fefo_scenario :
    settle_sale [⟨1, "P"⟩] [1] []
        [⟨1, 1, 5, 10, some 20250101⟩, ⟨2, 1, 10, 12, some 20250601⟩]
        [(1, ⟨8, 20⟩)] 1 none 0 =
      .ok { venta := ⟨160, 0, 1, none⟩,
            detalles := [⟨1, 8, 20, 43/4, 160⟩],
            lotes := [⟨1, 1, 0, 10, some 20250101⟩, ⟨2, 1, 7, 12, some 20250601⟩] } := by
  norm_num [settle_sale, validar_stock, stock_total, esDisponible, lotes_disponibles,
    sortLotes, insertLote, fechaLT, consumir_lotes, descontar, aplicar_descuentos,
    procesar_linea, procesar_lineas, subtotal_calculado, clienteOk, DetalleVenta.crear,
    List.find?, List.contains, List.filter]

lemma procesar_lineas_subtotals (productos : List Producto) :
    ∀ (items : List (Nat × ItemData)) (s : List Lote)
      (r : List DetalleVenta × List Lote),
    procesar_lineas productos s items = .ok r →
    ∀ det ∈ r.1, det.subtotal = det.cantidad * det.precio_unitario_momento := by
  intro items
  induction items with
  | nil =>
      intro s r h det hd
      simp only [procesar_lineas] at h
      have hr := Except.ok.inj h
      subst hr
      exact absurd hd (List.not_mem_nil det)
  | cons e rest ih =>
      intro s r h det hd
      simp only [procesar_lineas] at h
      split at h
      · exact absurd h (by simp)
      next producto hfind =>
        split at h
        · exact absurd h (by simp)
        next pr hlinea =>
          split at h
          · exact absurd h (by simp)
          next rs hrest =>
            have hr := Except.ok.inj h
            subst hr
            rcases List.mem_cons.mp hd with rfl | hmem
            · by_cases hq : e.2.quantity = 0
              · rw [procesar_linea] at hlinea
                simp [hq] at hlinea
              · rw [procesar_linea_ok hq] at hlinea
                have := (Prod.mk.inj (Except.ok.inj hlinea)).1
                rw [← this]
                rfl
            · exact ih _ rs hrest det hmem

/-- Claim C2: every persisted Sale stores
    total = max(0, sum of quantity*price over the cart - discount), where the
    discount is the sale's stored (validated) discount — equal to the
    submitted discount whenever that is nonnegative — computed server-side
    from the cart lines alone (no client-supplied total is ever read), and
    every stored sale line's subtotal equals quantity times the unit sale
    price, as set by DetalleVenta.save. -/
theorem C2_total_integrity (productos : List Producto) (metodos clientes : List Nat)
    (s : List Lote) (items : List (Nat × ItemData)) (mId : Nat) (cId : Option Nat)
    (d : ℚ) (r : VentaResult)
    (h : settle_sale productos metodos clientes s items mId cId d = .ok r) :
    r.venta.total =
      max 0 ((items.map (fun e => e.2.quantity * e.2.price)).sum - r.venta.descuento) ∧
    (0 ≤ d → r.venta.descuento = d) ∧
    ∀ det ∈ r.detalles, det.subtotal = det.cantidad * det.precio_unitario_momento := by
  obtain ⟨hv, hp, hdesc, htot⟩ := settle_sale_ok_inv h
  rw [← hdesc] at htot
  refine ⟨?_, ?_,
    fun det hd' => procesar_lineas_subtotals productos items s _ hp det hd'⟩
  · rw [htot]
    have hsub : subtotal_calculado items =
        (items.map (fun e => e.2.quantity * e.2.price)).sum := by
      unfold subtotal_calculado
      rw [List.map_congr_left]
      intro e _
      rw [mul_comm]
    rw [hsub]
    rcases le_or_lt 0
        ((items.map (fun e => e.2.quantity * e.2.price)).sum - r.venta.descuento)
      with hc | hc
    · rw [if_neg (not_lt.mpr hc), max_eq_right hc]
    · rw [if_pos hc, max_eq_left (le_of_lt hc)]
  · intro hd
    rw [hdesc, if_neg (not_lt.mpr hd)]

/-- Claim C2 witness: a concrete settlement (two lines, discount 30, clamped
    total) on which the theorem's hypotheses hold. -/
theorem C2_total_integrity_witness :
    ({ venta := ⟨130, 30, 1, none⟩,
       detalles := [⟨1, 8, 20, 43/4, 160⟩],
       lotes := [⟨1, 1, 0, 10, some 20250101⟩, ⟨2, 1, 7, 12, some 20250601⟩] }
      : VentaResult).venta.total =
      max 0 (([(1, (⟨8, 20⟩ : ItemData))].map (fun e => e.2.quantity * e.2.price)).sum -
        ({ venta := ⟨130, 30, 1, none⟩,
           detalles := [⟨1, 8, 20, 43/4, 160⟩],
           lotes := [⟨1, 1, 0, 10, some 20250101⟩, ⟨2, 1, 7, 12, some 20250601⟩] }
          : VentaResult).venta.descuento) ∧
    ({ venta := ⟨130, 30, 1, none⟩,
       detalles := [⟨1, 8, 20, 43/4, 160⟩],
       lotes := [⟨1, 1, 0, 10, some 20250101⟩, ⟨2, 1, 7, 12, some 20250601⟩] }
      : VentaResult).venta.descuento = 30 := by
  have heval : settle_sale [⟨1, "P"⟩] [1] []
      [⟨1, 1, 5, 10, some 20250101⟩, ⟨2, 1, 10, 12, some 20250601⟩]
      [(1, ⟨8, 20⟩)] 1 none 30 =
      .ok { venta := ⟨130, 30, 1, none⟩,
            detalles := [⟨1, 8, 20, 43/4, 160⟩],
            lotes := [⟨1, 1, 0, 10, some 20250101⟩, ⟨2, 1, 7, 12, some 20250601⟩] } := by
    norm_num [settle_sale, validar_stock, stock_total, esDisponible, lotes_disponibles,
      sortLotes, insertLote, fechaLT, consumir_lotes, descontar, aplicar_descuentos,
      procesar_linea, procesar_lineas, subtotal_calculado, clienteOk, DetalleVenta.crear,
      List.find?, List.contains, List.filter]
  have happ := C2_total_integrity _ _ _ _ _ _ _ _ _ heval
  exact ⟨happ.1, happ.2.1 (by norm_num)⟩

/-- Claim C3, counterexample: a cart line with quantity -1 settles successfully
    (pre-validation only rejects quantity > stock, the FEFO loop breaks at
    once, and 0/(-1) divides fine), yet the product's summed remaining
    quantity decreases by 0, not by the "quantity sold" -1. -/
theorem C3_counterexample :
    ∃ r, settle_sale [⟨1, "P"⟩] [1] [] [⟨1, 1, 5, 10, none⟩]
        [(1, ⟨-1, 20⟩)] 1 none 0 = .ok r ∧
      sum_producto [⟨1, 1, 5, 10, none⟩] 1 - sum_producto r.lotes 1 = 0 ∧
      ((0 : ℚ) ≠ -1) := by
  refine ⟨{ venta := ⟨0, 0, 1, none⟩, detalles := [⟨1, -1, 20, 0, -20⟩],
            lotes := [⟨1, 1, 5, 10, none⟩] }, ?_, by norm_num [sum_producto], by norm_num⟩
  norm_num [settle_sale, validar_stock, stock_total, esDisponible, lotes_disponibles,
    sortLotes, insertLote, fechaLT, consumir_lotes, descontar, aplicar_descuentos,
    procesar_linea, procesar_lineas, subtotal_calculado, clienteOk, DetalleVenta.crear,
    List.find?, List.contains, List.filter]

/-- Claim C3, amended: for every successful settlement over a table with
    distinct lote ids and a cart with distinct product keys, every line with
    nonnegative quantity decreases its product's summed remaining quantity by
    exactly that quantity, and no lote is driven below zero (untouched lotes
    are returned unchanged). -/
theorem C3_stock_conservation (productos : List Producto) (metodos clientes : List Nat)
    (s : List Lote) (items : List (Nat × ItemData)) (mId : Nat) (cId : Option Nat)
    (d : ℚ) (r : VentaResult)
    (hid : (s.map Lote.id).Nodup) (hkeys : (items.map Prod.fst).Nodup)
    (h : settle_sale productos metodos clientes s items mId cId d = .ok r) :
    (∀ e ∈ items, 0 ≤ e.2.quantity →
      sum_producto s e.1 - sum_producto r.lotes e.1 = e.2.quantity) ∧
    (∀ l' ∈ r.lotes, 0 ≤ l'.cantidad_actual ∨ l' ∈ s) := by
  obtain ⟨hv, hp, _, _⟩ := settle_sale_ok_inv h
  obtain ⟨hids, hfil, hsum, hnn, hsubs⟩ :=
    procesar_lineas_facts productos items s (r.detalles, r.lotes) hid hkeys hp
  refine ⟨?_, hnn⟩
  intro e he hq0
  have hstock := validar_stock_ok_spec hv e he
  have hs := hsum e he hq0
  rw [min_eq_left hstock] at hs
  have hs' : sum_producto r.lotes e.1 = sum_producto s e.1 - e.2.quantity := hs
  linarith [hs']

/-- Claim C3 witness: on the two-batch scenario the theorem yields a decrease
    of exactly 8 units for product 1. -/
theorem C3_stock_conservation_witness :
    sum_producto [⟨1, 1, 5, 10, some 20250101⟩, ⟨2, 1, 10, 12, some 20250601⟩] 1 -
      sum_producto [⟨1, 1, 0, 10, some 20250101⟩, ⟨2, 1, 7, 12, some 20250601⟩] 1 =
      (8 : ℚ) := by
  have heval : settle_sale [⟨1, "P"⟩] [1] []
      [⟨1, 1, 5, 10, some 20250101⟩, ⟨2, 1, 10, 12, some 20250601⟩]
      [(1, ⟨8, 20⟩)] 1 none 0 =
      .ok { venta := ⟨160, 0, 1, none⟩,
            detalles := [⟨1, 8, 20, 43/4, 160⟩],
            lotes := [⟨1, 1, 0, 10, some 20250101⟩, ⟨2, 1, 7, 12, some 20250601⟩] } := by
    norm_num [settle_sale, validar_stock, stock_total, esDisponible, lotes_disponibles,
      sortLotes, insertLote, fechaLT, consumir_lotes, descontar, aplicar_descuentos,
      procesar_linea, procesar_lineas, subtotal_calculado, clienteOk, DetalleVenta.crear,
      List.find?, List.contains, List.filter]
  have hconc := (C3_stock_conservation _ _ _ _ _ _ _ _ _
      (by simp) (by simp) heval).1 (1, ⟨8, 20⟩) (by simp) (by norm_num)
  simpa using hconc

/-- Claim C4, counterexample: with only 1 unit in stock and 2 requested, the
    per-line FEFO consumption does not fail the transaction: it succeeds,
    drains the batch, and records a sale line for the full requested quantity
    2 at the diluted average cost (1*10)/2 = 5.  (In settle_sale this state is
    only reachable through the race the claim describes, since pre-validation
    checks the same stock query first.) -/
theorem C4_counterexample :
    procesar_linea [⟨1, 1, 1, 10, none⟩] ⟨1, "P"⟩ ⟨2, 20⟩ =
      .ok (⟨1, 2, 20, 5, 40⟩, [⟨1, 1, 0, 10, none⟩]) ∧
    stock_total [⟨1, 1, 1, 10, none⟩] 1 < 2 ∧
    ∀ err : VentaError,
      procesar_linea [⟨1, 1, 1, 10, none⟩] ⟨1, "P"⟩ ⟨2, 20⟩ ≠ .error err := by
  have heval : procesar_linea [⟨1, 1, 1, 10, none⟩] ⟨1, "P"⟩ ⟨2, 20⟩ =
      .ok (⟨1, 2, 20, 5, 40⟩, [⟨1, 1, 0, 10, none⟩]) := by
    norm_num [procesar_linea, lotes_disponibles, sortLotes, insertLote, fechaLT,
      esDisponible, consumir_lotes, descontar, aplicar_descuentos, DetalleVenta.crear,
      List.filter]
  refine ⟨heval, ?_, ?_⟩
  · norm_num [stock_total, esDisponible, List.filter]
  · intro err hc
    rw [heval] at hc
    exact absurd hc (by simp)

/-- Claim C4, amended: when the available batches cannot cover a line
    (0 < requested, available < requested), the per-line consumption does not
    fail: it returns a sale line whose recorded quantity is the full requested
    quantity while only the available amount is consumed from the batches. -/
theorem C4_no_race_guard (s : List Lote) (producto : Producto) (item : ItemData)
    (hid : (s.map Lote.id).Nodup) (hq : 0 < item.quantity)
    (hstock : stock_total s producto.id < item.quantity) :
    ∃ det s', procesar_linea s producto item = .ok (det, s') ∧
      det.cantidad = item.quantity ∧
      sum_producto s producto.id - sum_producto s' producto.id =
        stock_total s producto.id := by
  have hqne : item.quantity ≠ 0 := ne_of_gt hq
  refine ⟨_, _, procesar_linea_ok hqne, rfl, ?_⟩
  obtain ⟨hids, hfil, hsum, hnn, hcant, hsub⟩ :=
    procesar_linea_facts hid (procesar_linea_ok hqne)
  have hs := hsum (le_of_lt hq)
  rw [min_eq_right (le_of_lt hstock)] at hs
  linarith [hs]

/-- Claim C4 witness: the amended theorem applied to one batch of 1 unit and a
    request for 2 units. -/
theorem C4_no_race_guard_witness :
    ∃ det s', procesar_linea [⟨1, 1, 1, 10, none⟩] ⟨1, "P"⟩ ⟨2, 20⟩ = .ok (det, s') ∧
      det.cantidad = 2 ∧
      sum_producto [⟨1, 1, 1, 10, none⟩] 1 - sum_producto s' 1 =
        stock_total [⟨1, 1, 1, 10, none⟩] 1 :=
  C4_no_race_guard [⟨1, 1, 1, 10, none⟩] ⟨1, "P"⟩ ⟨2, 20⟩ (by simp) (by norm_num)
    (by norm_num [stock_total, esDisponible, List.filter])

/-- Claim C5: if the cart reaches a line whose requested quantity exceeds the
    product's summed positive-remaining stock (all earlier lines resolving and
    within stock), settle_sale fails with the Insufficient-Stock error carrying
    the product's name, the requested amount and the available amount; the
    error return means the transaction persists nothing (the model returns no
    state on error, mirroring the `transaction.atomic` rollback, and
    pre-validation runs before any batch mutation). -/
theorem C5_insufficient_stock (productos : List Producto) (metodos clientes : List Nat)
    (s : List Lote) (pre post : List (Nat × ItemData)) (pid : Nat) (item : ItemData)
    (producto : Producto) (mId : Nat) (cId : Option Nat) (d : ℚ)
    (hpre : ∀ e ∈ pre, (productos.find? (fun p => p.id == e.1)).isSome ∧
      e.2.quantity ≤ stock_total s e.1)
    (hfind : productos.find? (fun p => p.id == pid) = some producto)
    (hstock : stock_total s pid < item.quantity) :
    settle_sale productos metodos clientes s (pre ++ (pid, item) :: post) mId cId d =
      .error (.insufficientStock producto.nombre item.quantity (stock_total s pid)) :=
  settle_sale_error_validar (validar_stock_append_error post hfind hstock pre hpre)

/-- Claim C5 witness: selling 20 units with only 15 available (10 + 5 across
    two batches) fails with Insufficient-Stock("P", 20, 15). -/
theorem C5_insufficient_stock_witness :
    settle_sale [⟨1, "P"⟩] [1] [] [⟨1, 1, 10, 5, none⟩, ⟨2, 1, 5, 5, none⟩]
      [(1, ⟨20, 10⟩)] 1 none 0 =
      .error (.insufficientStock "P" 20 15) := by
  have h15 : stock_total [(⟨1, 1, 10, 5, none⟩ : Lote), ⟨2, 1, 5, 5, none⟩] 1 = 15 := by
    norm_num [stock_total, esDisponible, List.filter]
  have happ := C5_insufficient_stock [⟨1, "P"⟩] [1] []
    [⟨1, 1, 10, 5, none⟩, ⟨2, 1, 5, 5, none⟩] [] [] 1 ⟨20, 10⟩ ⟨1, "P"⟩ 1 none 0
    (by intro e he; exact absurd he (List.not_mem_nil e))
    (by simp [List.find?])
    (by rw [h15]; norm_num)
  rw [h15] at happ
  simpa using happ

/-- Claim C10: a cart line with quantity 0 passes pre-validation (0 never
    exceeds the nonnegative stock sum), the FEFO loop consumes nothing, and
    the average-cost division 0/0 raises decimal.InvalidOperation, which is
    not a ValueError: the caller gets the generic Unexpected error (HTTP 500),
    not a Validation/Insufficient-Stock response, and the atomic transaction
    rolls back (the error result carries no Sale, Sale Line or batch state). -/
theorem C10_zero_quantity_unexpected (productos : List Producto)
    (metodos clientes : List Nat) (s : List Lote) (items : List (Nat × ItemData))
    (mId : Nat) (cId : Option Nat) (d : ℚ)
    (hfound : ∀ e ∈ items, (productos.find? (fun p => p.id == e.1)).isSome)
    (hstock : ∀ e ∈ items, e.2.quantity ≤ stock_total s e.1)
    (hb : (metodos.contains mId && clienteOk clientes cId) = true)
    (hzero : ∃ e ∈ items, e.2.quantity = 0) :
    settle_sale productos metodos clientes s items mId cId d = .error .unexpected :=
  settle_sale_eval_proc_error (validar_stock_ok_of hfound hstock) hb
    (procesar_lineas_zero productos items s hfound hzero)

/-- Claim C10 witness: a single line of quantity 0 over a well-stocked product
    yields the generic Unexpected error. -/
theorem C10_zero_quantity_unexpected_witness :
    settle_sale [⟨1, "P"⟩] [1] [] [⟨1, 1, 5, 10, none⟩] [(1, ⟨0, 10⟩)] 1 none 0 =
      .error .unexpected := by
  apply C10_zero_quantity_unexpected
  · intro e he
    rcases List.mem_cons.mp he with rfl | hmem
    · simp [List.find?]
    · exact absurd hmem (List.not_mem_nil e)
  · intro e he
    rcases List.mem_cons.mp he with rfl | hmem
    · norm_num [stock_total, esDisponible, List.filter]
    · exact absurd hmem (List.not_mem_nil e)
  · simp [clienteOk]
  · exact ⟨(1, ⟨0, 10⟩), by simp, rfl⟩

/-- Claim C6: the counted amount defaults to zero when absent (third
    conjunct), but a non-numeric submitted amount does NOT produce the
    per-method Validation message: `Decimal` raises
    `decimal.InvalidOperation`, which the `except ValueError` clause at
    cierres/views.py lines 146-148 never catches, so the outer
    `except Exception` returns the generic message instead (first conjunct);
    the closing still aborts with nothing persisted (the error result carries
    no CierreCaja, DetalleCierre or stamped sale). -/
theorem C6_invalid_monto_generic_error :
    close_register [⟨1, "Efectivo"⟩] [⟨1, 100, some 1, none⟩] (fun _ => .invalid) 7 =
      .error .unexpected ∧
    (∀ m : String, CierreError.unexpected ≠ CierreError.validationError m) ∧
    close_register [⟨1, "Efectivo"⟩] [⟨1, 100, some 1, none⟩] (fun _ => .absent) 7 =
      .ok (⟨100, 0, -100⟩, [⟨1, 100, 0⟩], [⟨1, 100, some 1, some 7⟩]) := by
  refine ⟨?_, fun m => by simp, ?_⟩
  · norm_num [close_register, procesar_montos, parseMonto, subtotal_metodo]
  · norm_num [close_register, procesar_montos, parseMonto, subtotal_metodo]

/-- Claim C7: for every successful closing, the header's variance equals
    counted-total minus system-total, where counted-total (total_arqueo) is
    the sum of the submitted counted amounts staged in the details and
    system-total is the recomputed sum over the locked pending sales — equal
    to the sum of the per-method system subtotals over the distinct
    payment-method group keys of those sales; and every Closing Detail's
    variance equals its counted amount minus its system subtotal. -/
theorem C7_variance_arithmetic (metodos : List MetodoPagoRow) (ventas : List VentaRow)
    (montos : Nat → MontoInput) (cid : Nat) (c : CierreCajaRow)
    (ds : List DetalleCierreRow) (vs' : List VentaRow)
    (h : close_register metodos ventas montos cid = .ok (c, ds, vs')) :
    c.diferencia = c.total_arqueo - c.total_sistema ∧
    c.total_arqueo = (ds.map DetalleCierreRow.monto_arqueo).sum ∧
    c.total_sistema =
      ((((ventas.filter (fun v => v.cierre == none)).map VentaRow.metodo_pago).dedup).map
        (subtotal_metodo (ventas.filter (fun v => v.cierre == none)))).sum ∧
    ∀ dd ∈ ds, dd.diferencia = dd.monto_arqueo - dd.monto_sistema ∧
      dd.monto_sistema =
        subtotal_metodo (ventas.filter (fun v => v.cierre == none))
          (some dd.metodo_pago) := by
  obtain ⟨hm, hsys, harq, hdif⟩ := close_register_ok_inv h
  refine ⟨hdif, harq, ?_, ?_⟩
  · rw [hsys]
    refine (sum_grouped _ _ (List.nodup_dedup _) ?_).symm
    intro v hv
    rw [List.mem_dedup]
    exact List.mem_map_of_mem VentaRow.metodo_pago hv
  · intro dd hdd
    exact ⟨rfl, (procesar_montos_facts hm dd hdd).1⟩

/-- Claim C7 witness: methods A (system 100, counted 95) and B (system 50,
    counted 55) give header variance 0 while the details carry -5 and +5. -/
theorem C7_variance_arithmetic_witness :
    ((⟨150, 150, 0⟩ : CierreCajaRow).diferencia =
      (⟨150, 150, 0⟩ : CierreCajaRow).total_arqueo -
        (⟨150, 150, 0⟩ : CierreCajaRow).total_sistema) ∧
    (⟨150, 150, 0⟩ : CierreCajaRow).diferencia = 0 ∧
    (⟨1, 100, 95⟩ : DetalleCierreRow).diferencia = -5 ∧
    (⟨2, 50, 55⟩ : DetalleCierreRow).diferencia = 5 := by
  have heval : close_register [⟨1, "A"⟩, ⟨2, "B"⟩]
      [⟨1, 100, some 1, none⟩, ⟨2, 50, some 2, none⟩]
      (fun i => if i == 1 then .valid 95 else .valid 55) 9 =
      .ok (⟨150, 150, 0⟩, [⟨1, 100, 95⟩, ⟨2, 50, 55⟩],
           [⟨1, 100, some 1, some 9⟩, ⟨2, 50, some 2, some 9⟩]) := by
    norm_num [close_register, procesar_montos, parseMonto, subtotal_metodo]
  refine ⟨(C7_variance_arithmetic _ _ _ _ _ _ _ heval).1, rfl, ?_, ?_⟩
  · norm_num [DetalleCierreRow.diferencia]
  · norm_num [DetalleCierreRow.diferencia]

/-- Claim C8, counterexample: with a dated batch (expiry coded 100) and a
    null-expiry batch both holding 1 unit, selling 1 unit consumes the
    null-expiry batch (id 2 drops to 0) while the dated batch is untouched —
    the opposite of "every dated batch is consumed before any null-expiry
    batch": on the configured SQLite backend, ascending ORDER BY places NULL
    first, not last. -/
theorem C8_counterexample :
    settle_sale [⟨1, "P"⟩] [1] [] [⟨1, 1, 1, 5, some 100⟩, ⟨2, 1, 1, 7, none⟩]
        [(1, ⟨1, 10⟩)] 1 none 0 =
      .ok { venta := ⟨10, 0, 1, none⟩, detalles := [⟨1, 1, 10, 7, 10⟩],
            lotes := [⟨1, 1, 1, 5, some 100⟩, ⟨2, 1, 0, 7, none⟩] } := by
  norm_num [settle_sale, validar_stock, stock_total, esDisponible, lotes_disponibles,
    sortLotes, insertLote, fechaLT, consumir_lotes, descontar, aplicar_descuentos,
    procesar_linea, procesar_lineas, subtotal_calculado, clienteOk, DetalleVenta.crear,
    List.find?, List.contains, List.filter]

/-- Claim C8, amended: in the FEFO consumption order produced by
    `order_by('fecha_vencimiento')` on SQLite, batches with no expiry date
    sort FIRST (SQLite treats NULL as smaller than every date), so no dated
    batch ever precedes a null-expiry batch: every null-expiry batch is
    consumed before any dated batch. -/
theorem C8_nulls_first (s : List Lote) (p : Nat) :
    List.Pairwise
      (fun a b => ¬(a.fecha_vencimiento ≠ none ∧ b.fecha_vencimiento = none))
      (lotes_disponibles s p) := by
  rw [lotes_disponibles]
  refine List.Pairwise.imp ?_ (sortLotes_pairwise (s.filter (esDisponible p)))
  intro a b hle hc
  rcases hc with ⟨ha, hb⟩
  cases hfa : a.fecha_vencimiento with
  | none => exact ha hfa
  | some x =>
      rw [hfa, hb] at hle
      simp [fechaLE] at hle
